import Mathlib

/- Shallow embedding of IBEnt's scoring engine (src/evaluate.py) and of the
CHEMDNER corpus reader (src/reader/chemdner_corpus.py), together with proofs
about the set-based comparison kernel, the derived metrics, report formatting,
offset translation and the enrichment operations. -/

/-! ## Data model of the scoring engine (src/evaluate.py) -/

/-- An offset tuple (did, start, end, text) as produced by
`corpus.get_offsets` and by the CHEMDNER gold-standard loader, and consumed by
`compare_results` (src/evaluate.py). -/
@[ext]
structure OffTuple where
  did : String
  start : Nat
  stop : Nat
  text : String
  deriving DecidableEq

/-- The scoring kernel of `compare_results` (src/evaluate.py lines 159-161):
`tps = offsets & goldoffsets`, `fps = offsets - goldoffsets`,
`fns = goldoffsets - offsets`, as Python set operations. -/
def compare_sets {α : Type} [DecidableEq α] (offsets goldoffsets : Finset α) :
    Finset α × Finset α × Finset α :=
  (offsets ∩ goldoffsets, offsets \ goldoffsets, goldoffsets \ offsets)

/-- Precision and recall as computed by `get_results`
(src/evaluate.py lines 290-295): both are 0 when `len(tps) == 0`, otherwise
`len(tps)/(len(tps)+len(fps))` and `len(tps)/(len(tps)+len(fns))`.
Python 2 with `from __future__ import division` gives true division, modelled
in ℚ. -/
def gr_precision_recall (ntp nfp nfn : Nat) : ℚ × ℚ :=
  if ntp = 0 then (0, 0)
  else ((ntp : ℚ) / ((ntp : ℚ) + (nfp : ℚ)), (ntp : ℚ) / ((ntp : ℚ) + (nfn : ℚ)))

/-- Precision, recall and f-measure as computed by `get_list_results`
(src/evaluate.py lines 252-259): all three are 0 when `len(tps) == 0`,
otherwise the standard formulas with `fmeasure = 2*p*r/(p+r)`. -/
def glr_metrics (ntp nfp nfn : Nat) : ℚ × ℚ × ℚ :=
  if ntp = 0 then (0, 0, 0)
  else
    let p := (ntp : ℚ) / ((ntp : ℚ) + (nfp : ℚ))
    let r := (ntp : ℚ) / ((ntp : ℚ) + (nfn : ℚ))
    (p, r, (2 * p * r) / (p + r))

/-! ## The reporting layer (src/evaluate.py) -/

/-- The tuple fields as read by `get_report` (src/evaluate.py lines 201-226):
`t[0]`, `str(t[1])`, `str(t[2])` and `t[3]`.  `get_report` consumes both
4-tuples (did, start, end, text) and, via `get_list_results`, 3-tuples
`("", text, "1")`; `t[3]` is read only when `getwords` is true, which never
happens for 3-tuples, so a placeholder fourth field is faithful there. -/
structure RTuple where
  did : String
  f1 : String
  f2 : String
  text : String
  deriving DecidableEq

/-- Projection of an offset tuple to the fields read by `get_report`:
`t[0]`, `str(t[1])`, `str(t[2])`, `t[3]`. -/
def projOff (o : OffTuple) : RTuple :=
  ⟨o.did, toString o.start, toString o.stop, o.text⟩

/-- A tuple of `get_list_results` (src/evaluate.py lines 247-248) is
`("", text.lower(), "1")`; it has no fourth component and `get_report` only
sees it with `getwords=False`. -/
def projList (t : String × String × String) : RTuple :=
  ⟨t.1, t.2.1, t.2.2, ""⟩

/-- The skip test of `get_report` (src/evaluate.py line 206): a tuple is
processed unless its doc id is nonempty and absent from `corpus.documents`. -/
def keepTuple (docids : List String) (t : RTuple) : Bool :=
  t.did == "" || docids.contains t.did

/-- The report key of a tuple (src/evaluate.py lines 202-205): "0" for an
empty doc id, otherwise the doc id itself. -/
def keyOf (t : RTuple) : String :=
  if t.did = "" then "0" else t.did

/-- One report line (src/evaluate.py lines 223-225):
`did \t start:end [\t text]`, the text field only when `getwords`. -/
def reportLine (getwords : Bool) (t : RTuple) : String :=
  keyOf t ++ "\t" ++ t.f1 ++ ":" ++ t.f2 ++ (if getwords then "\t" ++ t.text else "")

/-- Lexicographic code-point comparison of character lists: the order Python
2 `list.sort()` uses on the byte strings of a report bucket. -/
def lexLe : List Char → List Char → Bool
  | [], _ => true
  | _ :: _, [] => false
  | x :: xs, y :: ys => if x = y then lexLe xs ys else decide (x < y)

/-- The sort order on report lines. -/
def strLe (a b : String) : Prop :=
  lexLe a.data b.data = true

instance : DecidableRel strLe := fun a b =>
  inferInstanceAs (Decidable (lexLe a.data b.data = true))

/-- `get_report` (src/evaluate.py lines 193-229).  A dict keyed by doc id
accumulates one line per non-skipped tuple and each per-document list is then
sorted; `words` collects `t[3]` of the non-skipped tuples when `getwords`.
The Python dict (whose iteration order, like the order of the set `results`,
is unspecified in Python 2) is modelled as an association list in
first-occurrence key order; buckets hold exactly the lines of their key, and
sorting makes the within-bucket insertion order immaterial. -/
def get_report {α : Type} [DecidableEq α] (proj : α → RTuple) (results : List α)
    (docids : List String) (getwords : Bool) :
    List (String × List String) × List String :=
  let kept := results.filter (fun t => keepTuple docids (proj t))
  let keys := (kept.map (fun t => keyOf (proj t))).dedup
  (keys.map (fun k =>
      (k, List.insertionSort strLe
        ((kept.filter (fun t => keyOf (proj t) == k)).map
          (fun t => reportLine getwords (proj t))))),
   if getwords then kept.map (fun t => (proj t).text) else [])

/-- `collections.Counter(words).most_common(10)` rendered as report lines
(src/evaluate.py lines 169-176): the ten most frequent strings with their
counts, one line `word: count` each.  Python 2 leaves the relative order of
equal counts unspecified; here ties keep first-occurrence order. -/
def mostCommon (words : List String) : List String :=
  ((List.insertionSort (fun a b => b.2 ≤ a.2)
      (words.dedup.map (fun w => (w, words.count w)))).take 10).map
    (fun p => p.1 ++ ": " ++ toString p.2)

/-- Dict lookup with the `if d in report` guard of src/evaluate.py
lines 180-188. -/
def lookupLines (report : List (String × List String)) (d : String) : List String :=
  match report.find? (fun p => p.1 == d) with
  | some p => p.2
  | none => []

/-- `compare_results` (src/evaluate.py lines 149-190): the set kernel, the
per-category reports, the common-words section (when `getwords`) and the
per-document blocks, returned together with the TP/FP/FN sets.  Python
iterates its sets in an unspecified order, so the sets flowing through the
function are modelled as lists (an enumeration of each set); the set
operations `&` and `-` of lines 159-161 become the corresponding membership
filters, and `alldocs` (a set union of the report keys) becomes a
duplicate-free enumeration. -/
def compare_results {α : Type} [DecidableEq α] (proj : α → RTuple)
    (offsets goldoffsets : List α) (docids : List String) (getwords : Bool) :
    List String × List α × List α × List α :=
  let tps := offsets.filter (fun t => t ∈ goldoffsets)
  let fps := offsets.filter (fun t => t ∉ goldoffsets)
  let fns := goldoffsets.filter (fun t => t ∉ offsets)
  let tpr := get_report proj tps docids getwords
  let fpr := get_report proj fps docids getwords
  let fnr := get_report proj fns docids getwords
  let alldocs := ((fpr.1.map Prod.fst) ++ (fnr.1.map Prod.fst) ++ (tpr.1.map Prod.fst)).dedup
  let common := if getwords then
      "Common FPs" :: (mostCommon fpr.2 ++ ("Common FNs" :: mostCommon fnr.2))
    else []
  (common ++ (alldocs.map (fun d =>
      d :: ((lookupLines tpr.1 d).map (fun x => "TP:" ++ x) ++
            ((lookupLines fpr.1 d).map (fun x => "FP:" ++ x) ++
             (lookupLines fnr.1 d).map (fun x => "FN:" ++ x))))).flatten,
   tps, fps, fns)

/-- The system-side preprocessing of `get_results` (src/evaluate.py lines
283-284): when text comparison is disabled the system tuples are rewritten to
`(did, start, end, "")`; the gold side is not touched anywhere. -/
def get_results_offsets (offsets : List OffTuple) (compare_text : Bool) :
    List OffTuple :=
  if compare_text then offsets
  else offsets.map (fun o => ⟨o.did, o.start, o.stop, ""⟩)

/-- `get_results` (src/evaluate.py lines 268-301) as the content string of the
report file it writes.  `none` models the `sys.exit()` taken when some system
offset has a doc id missing from `corpus.documents` (lines 279-282).
`set(offsets)` at the call of line 286 is modelled by `dedup`.  Python
renders the precision/recall floats with `str`; the rendering of the rational
value is a parameter. -/
def get_results_content (offsets gold_offsets : List OffTuple)
    (docids : List String) (compare_text : Bool) (render : ℚ → String) :
    Option String :=
  if ∃ o ∈ offsets, o.did ∉ docids then none
  else
    let r := compare_results projOff ((get_results_offsets offsets compare_text).dedup)
      gold_offsets docids compare_text
    let pr := gr_precision_recall r.2.1.length r.2.2.1.length r.2.2.2.length
    some ("TPs: " ++ toString r.2.1.length ++ "\nFPs: " ++ toString r.2.2.1.length ++
      "\n FNs: " ++ toString r.2.2.2.length ++ "\n" ++
      "Precision: " ++ render pr.1 ++ "\n Recall: " ++ render pr.2 ++ "\n" ++
      String.join (r.1.map (fun l => l ++ "\n")))

/-- Python 2 `str.lower()`: lowercase the ASCII letters, character by
character. -/
def pyLower (s : String) : String :=
  String.mk (s.data.map Char.toLower)

/-- The report-file content written by `get_list_results` (src/evaluate.py
lines 246-265): both sides become sets of tuples `("", text.lower(), "1")`
(`set(...)` modelled by `dedup`), `getwords` is false, and the header renders
precision and recall (computed with the f-measure by `glr_metrics`) through
the `str` rendering parameter. -/
def get_list_results_content (allentities goldset : List String)
    (docids : List String) (render : ℚ → String) : String :=
  let lineset := (allentities.map (fun l => (("", pyLower l, "1") : String × String × String))).dedup
  let golds := (goldset.map (fun grec => (("", pyLower grec, "1") : String × String × String))).dedup
  let r := compare_results projList lineset golds docids false
  let m := glr_metrics r.2.1.length r.2.2.1.length r.2.2.2.length
  "TPs: " ++ toString r.2.1.length ++ "\nFPs: " ++ toString r.2.2.1.length ++
    "\n FNs: " ++ toString r.2.2.2.length ++ "\n" ++
    "Precision: " ++ render m.1 ++ "\nRecall: " ++ render m.2.1 ++ "\n" ++
    String.join (r.1.map (fun l => l ++ "\n"))

/-! ## The CHEMDNER corpus reader (src/reader/chemdner_corpus.py) -/

/-- Python `str.replace(old, new)` on character lists: scan left to right,
replacing non-overlapping occurrences.  Structural recursion on a fuel that
starts at the length of the scanned list, which suffices because every step
consumes at least one character. -/
def pyReplaceF (pat repl : List Char) : Nat → List Char → List Char
  | _, [] => []
  | 0, s => s
  | fuel + 1, c :: rest =>
    if pat ≠ [] ∧ pat.isPrefixOf (c :: rest) then
      repl ++ pyReplaceF pat repl fuel ((c :: rest).drop pat.length)
    else
      c :: pyReplaceF pat repl fuel rest

/-- Python `s.replace(pat, repl)`. -/
def pyReplace (pat repl s : List Char) : List Char :=
  pyReplaceF pat repl s.length s

/-- The whitespace test of Python `str.strip()` (ASCII whitespace). -/
def pyWs (c : Char) : Bool :=
  c = ' ' || c = '\t' || c = '\n' || c = '\r' || c = '\x0b' || c = '\x0c'

/-- Python `s.strip()`: remove leading and trailing whitespace. -/
def pyStrip (s : List Char) : List Char :=
  ((s.dropWhile pyWs).reverse.dropWhile pyWs).reverse

/-- The replacements applied to both title and body by `load_corpus`
(src/reader/chemdner_corpus.py lines 36-37):
`.replace("<", "(").replace(">", ")")`. -/
def normalizeCommon (s : List Char) : List Char :=
  pyReplace (">".data) (")".data) (pyReplace ("<".data) ("(".data) s)

/-- The full normalization of the title (line 36): angle brackets to
parentheses, then `.replace(". ", ", ")`. -/
def titleNormalize (s : List Char) : List Char :=
  pyReplace (". ".data) (", ".data) (normalizeCommon s)

/-- An entity as tagged by `load_annotations`: sentence-local offsets, text
and subtype. -/
structure CEntity where
  sstart : Nat
  send : Nat
  etext : List Char
  subtype : List Char
  deriving DecidableEq

/-- A tokenized sentence: document-global offset, text, and the entity list
of the gold-standard source. -/
structure CSentence where
  offset : Nat
  stext : List Char
  elist : List CEntity
  deriving DecidableEq

/-- A CHEMDNER document as built by `load_corpus`
(src/reader/chemdner_corpus.py lines 36-39). -/
structure ChemDoc where
  did : String
  title : List Char
  text : List Char
  sentences : List CSentence
  deriving DecidableEq

/-- One line of `load_corpus` (src/reader/chemdner_corpus.py lines 35-39):
`doctext = tsv[1].strip().replace("<", "(").replace(">", ")").replace(". ", ", ") + ". "`
followed by `tsv[2].strip().replace("<", "(").replace(">", ")")`, and
`title = tsv[1].strip() + "."`.  Sentences are produced by the external
tokenizer (`sentence_tokenize`), so they are a parameter. -/
def load_corpus_line (pmid : String) (title abstract : List Char)
    (sents : List CSentence) : ChemDoc :=
  { did := pmid
  , title := pyStrip title ++ ".".data
  , text := titleNormalize (pyStrip title) ++ ". ".data ++ normalizeCommon (pyStrip abstract)
  , sentences := sents }

/-- The title offset applied by `load_annotations`
(src/reader/chemdner_corpus.py lines 64-66): `len(title) + 1` (account for the
extra ". ") when the section is "A", 0 otherwise. -/
def load_ann_offset (doc : ChemDoc) (doct : List Char) : Nat :=
  if doct = "A".data then doc.title.length + 1 else 0

/-- The resolved document-global span of line 67 of
src/reader/chemdner_corpus.py: `start + title_offset, end + title_offset`. -/
def load_ann_resolved (doc : ChemDoc) (doct : List Char) (start stop : Nat) :
    Nat × Nat :=
  (start + load_ann_offset doc doct, stop + load_ann_offset doc doct)

/-- The title offset applied by `get_chemdner_gold_ann_set`
(src/reader/chemdner_corpus.py lines 132-134): `len(title) + 2` when the
section is "A", 0 otherwise, where `title` is the raw title field of the
abstracts file. -/
def gold_ann_offset (title : List Char) (sect : List Char) : Nat :=
  if sect = "A".data then title.length + 2 else 0

/-- Python slicing `s[a:b]` for nonnegative bounds. -/
def pySlice (s : List Char) (a b : Nat) : List Char :=
  (s.take b).drop a

/-- One gold tuple of `get_chemdner_gold_ann_set`
(src/reader/chemdner_corpus.py lines 127-135):
`(docid, start + title_offset, end + title_offset, section_text[start:end])`. -/
def gold_ann_item (docid : String) (title : List Char) (sect : List Char)
    (sectText : List Char) (start stop : Nat) : String × Nat × Nat × List Char :=
  (docid, start + gold_ann_offset title sect, stop + gold_ann_offset title sect,
    pySlice sectText start stop)

/-- An annotation line of `load_annotations`
(src/reader/chemdner_corpus.py line 59):
`pmid, doct, start, end, text, chemt`. -/
structure AnnLine where
  pmid : String
  doct : List Char
  start : Nat
  stop : Nat
  atext : List Char
  chemt : List Char
  deriving DecidableEq

/-- Modelled from the spec: `Sentence.tag_entity` lives in text/document.py,
which is not under src/; per spec section 4.2 it creates an Entity with the
given sentence-local offsets, text and subtype and appends it to the
sentence's entity list. -/
def tag_entity (s : CSentence) (sstart send : Nat) (etext subtype : List Char) :
    CSentence :=
  { s with elist := s.elist ++ [⟨sstart, send, etext, subtype⟩] }

/-- Modelled from the spec: `Document.find_sentence_containing` lives in
text/document.py, which is not under src/; per spec section 4.1 it is a
containment search over the document's ordered sentence list, returning the
first sentence whose span contains the document-global interval. -/
def find_sentence_containing (sents : List CSentence) (start stop : Nat) :
    Option Nat :=
  match sents with
  | [] => none
  | s :: rest =>
    if s.offset ≤ start ∧ stop ≤ s.offset + s.stext.length then some 0
    else (find_sentence_containing rest start stop).map (· + 1)

/-- Replace the element at an index, when it exists. -/
def modifyIdx {α : Type} (f : α → α) : Nat → List α → List α
  | _, [] => []
  | 0, x :: xs => f x :: xs
  | n + 1, x :: xs => x :: modifyIdx f n xs

/-- The per-annotation step of `load_annotations`
(src/reader/chemdner_corpus.py lines 62-77) for the document whose id
matches: resolve the offsets, find the containing sentence and tag the entity
there with sentence-local offsets, or (printing a diagnostic) drop the
annotation when no sentence contains the span. -/
def process_ann (doc : ChemDoc) (a : AnnLine) : ChemDoc :=
  let r := load_ann_resolved doc a.doct a.start a.stop
  match find_sentence_containing doc.sentences r.1 r.2 with
  | some i =>
    { doc with sentences :=
        (modifyIdx (fun s => tag_entity s (r.1 - s.offset) (r.2 - s.offset) a.atext a.chemt)
          i doc.sentences) }
  | none => doc

/-- The entity-type filter of line 63 of src/reader/chemdner_corpus.py:
`entitytype == "all" or entitytype == "chemical" or entitytype == chemt`. -/
def type_ok (entitytype chemt : List Char) : Bool :=
  entitytype == "all".data || entitytype == "chemical".data || entitytype == chemt

/-- `load_annotations` (src/reader/chemdner_corpus.py lines 52-79) over the
parsed annotation lines: each line updates the document whose id matches (if
any) when the entity-type filter accepts it; other documents, and every later
line, are processed regardless of earlier drops. -/
def load_annotations (entitytype : List Char) (docs : List ChemDoc) :
    List AnnLine → List ChemDoc
  | [] => docs
  | a :: rest =>
    load_annotations entitytype
      (docs.map (fun d =>
        if d.did = a.pmid ∧ type_ok entitytype a.chemt then process_ann d a else d))
      rest

/-! ## Enrichment operations (src/evaluate.py, `add_chebi_mappings` and
`add_ssm_score`) -/

/-- An entity as seen by the enrichment operations of src/evaluate.py:
identity (eid), its sentence id, text and offsets, plus the ChEBI and SSM
enrichment fields they write. -/
structure EEntity where
  eid : String
  sid : String
  etext : String
  dstart : Nat
  dend : Nat
  sstart : Nat
  send : Nat
  chebi_id : String
  chebi_name : String
  chebi_score : ℚ
  ssm_score : ℚ
  ssm_best_text : String
  ssm_best_ID : String
  ssm_best_name : String
  ssm : String
  deriving DecidableEq

/-- A sentence as seen by the enrichment operations: its `elist`, a map from
annotation-source name to the entities of that source (association list in
insertion order). -/
structure ESentence where
  elist : List (String × List EEntity)
  deriving DecidableEq

/-- The update of one entity by `add_chebi_mappings`
(src/evaluate.py lines 49-52): `chebi_info = find_chebi_term3(entity.text)`
and the three ChEBI fields are assigned from it.  The external resolver is
the parameter `f`. -/
def chebi_update (f : String → String × String × ℚ) (e : EEntity) : EEntity :=
  { e with
    chebi_id := (f e.etext).1
    chebi_name := (f e.etext).2.1
    chebi_score := (f e.etext).2.2 }

/-- `add_chebi_mappings` (src/evaluate.py lines 29-69) restricted to its
effect on the corpus (did → sid → sentence): for every sentence and every
source whose name starts with `source`, each entity in that source's list
gets the ChEBI fields of `chebi_update`. -/
def add_chebi_mappings (f : String → String × String × ℚ) (source : String)
    (corpus : List (String × List (String × ESentence))) :
    List (String × List (String × ESentence)) :=
  corpus.map (fun doc => (doc.1, doc.2.map (fun sen => (sen.1,
    ⟨sen.2.elist.map (fun se =>
      if se.1.startsWith source then (se.1, se.2.map (chebi_update f)) else se)⟩))))

/-- The update of one matched entity by `add_ssm_score`
(src/evaluate.py lines 102-106): the four SSM fields are copied from the
entity returned by `get_ssm` and `ssm` is set to the measure name.  The
external `get_ssm` computation is the parameter `g`. -/
def ssm_update (g : EEntity → ℚ × String × String × String) (measure : String)
    (e e2 : EEntity) : EEntity :=
  { e2 with
    ssm_score := (g e).1
    ssm_best_text := (g e).2.1
    ssm_best_ID := (g e).2.2.1
    ssm_best_name := (g e).2.2.2
    ssm := measure }

/-- The inner loop of `add_ssm_score` (src/evaluate.py lines 100-106): for
one entity `e` of `entities_ssm`, every entity with the same eid in
`corpus[did][e.sid].elist[s]` receives the SSM fields. -/
def ssm_apply_one (g : EEntity → ℚ × String × String × String) (measure : String)
    (src : String) (e : EEntity) (sents : List (String × ESentence)) :
    List (String × ESentence) :=
  sents.map (fun sen =>
    if sen.1 = e.sid then
      (sen.1, ⟨sen.2.elist.map (fun se =>
        if se.1 = src then
          (se.1, se.2.map (fun e2 => if e2.eid = e.eid then ssm_update g measure e e2 else e2))
        else se)⟩)
    else sen)

/-- The per-document entity collection of `add_ssm_score`
(src/evaluate.py lines 87-93): all entities of source `src` across the
document's sentences, in sentence order. -/
def collect_source (src : String) (sents : List (String × ESentence)) :
    List EEntity :=
  (sents.map (fun sen =>
    ((sen.2.elist.filter (fun se => se.1 == src)).map Prod.snd).flatten)).flatten

/-- The sources considered for a document by `add_ssm_score`
(src/evaluate.py lines 89-92): those present in some sentence's elist and
starting with `source`. -/
def doc_sources (source : String) (sents : List (String × ESentence)) :
    List String :=
  ((sents.map (fun sen =>
    (sen.2.elist.map Prod.fst).filter (fun s => s.startsWith source))).flatten).dedup

/-- `add_ssm_score` (src/evaluate.py lines 72-119) on one document: the
entity dict is built first, then for each source in it every collected entity
distributes its SSM fields to same-eid entities of its sentence. -/
def add_ssm_doc (g : EEntity → ℚ × String × String × String) (measure source : String)
    (sents : List (String × ESentence)) : List (String × ESentence) :=
  (doc_sources source sents).foldl (fun acc s =>
    (collect_source s sents).foldl (fun acc2 e => ssm_apply_one g measure s e acc2) acc)
    sents

/-- `add_ssm_score` (src/evaluate.py lines 72-119) restricted to its effect
on the corpus. -/
def add_ssm_score (g : EEntity → ℚ × String × String × String) (measure source : String)
    (corpus : List (String × List (String × ESentence))) :
    List (String × List (String × ESentence)) :=
  corpus.map (fun doc => (doc.1, add_ssm_doc g measure source doc.2))

/-- The identity-and-offsets core of an entity: everything the enrichment
operations must not change. -/
def core_of (e : EEntity) : String × String × String × Nat × Nat × Nat × Nat :=
  (e.eid, e.sid, e.etext, e.dstart, e.dend, e.sstart, e.send)

/-- The core view of a document's sentences: sid structure, elist source
structure, and each entity's core, in order. -/
def sents_core (sents : List (String × ESentence)) :
    List (String × List (String × List (String × String × String × Nat × Nat × Nat × Nat))) :=
  sents.map (fun sen => (sen.1, sen.2.elist.map (fun se => (se.1, se.2.map core_of))))

/-- The core view of a whole corpus. -/
def corpus_core (corpus : List (String × List (String × ESentence))) :
    List (String × List (String × List (String × List (String × String × String × Nat × Nat × Nat × Nat)))) :=
  corpus.map (fun doc => (doc.1, sents_core doc.2))

/-! ## Theorems -/

/-- C1: for every system offset set and every gold offset set,
`compare_results` computes TP = system ∩ gold, FP = system − gold,
FN = gold − system under exact tuple equality (same doc id, same start, same
end, same text), hence TP ∪ FP = system, TP ∪ FN = gold, TP ∩ FP = ∅ and
TP ∩ FN = ∅. -/
theorem c1_compare_results_set_partition (system gold : List OffTuple)
    (docids : List String) (getwords : Bool) :
    (compare_results projOff system gold docids getwords).2.1.toFinset =
      (compare_sets system.toFinset gold.toFinset).1 ∧
    (compare_results projOff system gold docids getwords).2.2.1.toFinset =
      (compare_sets system.toFinset gold.toFinset).2.1 ∧
    (compare_results projOff system gold docids getwords).2.2.2.toFinset =
      (compare_sets system.toFinset gold.toFinset).2.2 ∧
    (compare_sets system.toFinset gold.toFinset).1 ∪
      (compare_sets system.toFinset gold.toFinset).2.1 = system.toFinset ∧
    (compare_sets system.toFinset gold.toFinset).1 ∪
      (compare_sets system.toFinset gold.toFinset).2.2 = gold.toFinset ∧
    (compare_sets system.toFinset gold.toFinset).1 ∩
      (compare_sets system.toFinset gold.toFinset).2.1 = ∅ ∧
    (compare_sets system.toFinset gold.toFinset).1 ∩
      (compare_sets system.toFinset gold.toFinset).2.2 = ∅ ∧
    (compare_sets system.toFinset gold.toFinset).1 = system.toFinset.filter (fun t =>
      ∃ u ∈ gold.toFinset, u.did = t.did ∧ u.start = t.start ∧ u.stop = t.stop ∧
        u.text = t.text) := by
  refine ⟨?_, ?_, ?_, ?_, ?_, ?_, ?_, ?_⟩
  · ext t; simp [compare_results, compare_sets]
  · ext t; simp [compare_results, compare_sets]
  · ext t; simp [compare_results, compare_sets]
  · ext t; simp [compare_sets]; try tauto
  · ext t; simp [compare_sets]; try tauto
  · ext t; simp [compare_sets]; try tauto
  · ext t; simp [compare_sets]; try tauto
  · ext t
    simp only [compare_sets, Finset.mem_inter, Finset.mem_filter]
    constructor
    · rintro ⟨hs, hg⟩
      exact ⟨hs, t, hg, rfl, rfl, rfl, rfl⟩
    · rintro ⟨hs, u, hu, h1, h2, h3, h4⟩
      have : u = t := OffTuple.ext h1 h2 h3 h4
      exact ⟨hs, this ▸ hu⟩

/-- The metric formulas of `get_results` and `get_list_results`, stated for
arbitrary counts. -/
theorem metrics_formulas (ntp nfp nfn : Nat) :
    ((gr_precision_recall ntp nfp nfn).1 =
      if ((ntp : ℚ) + (nfp : ℚ)) = 0 then 0 else (ntp : ℚ) / ((ntp : ℚ) + (nfp : ℚ))) ∧
    ((gr_precision_recall ntp nfp nfn).2 =
      if ((ntp : ℚ) + (nfn : ℚ)) = 0 then 0 else (ntp : ℚ) / ((ntp : ℚ) + (nfn : ℚ))) ∧
    ((glr_metrics ntp nfp nfn).1 = (gr_precision_recall ntp nfp nfn).1 ∧
      (glr_metrics ntp nfp nfn).2.1 = (gr_precision_recall ntp nfp nfn).2) ∧
    ((glr_metrics ntp nfp nfn).2.2 =
      if (gr_precision_recall ntp nfp nfn).1 + (gr_precision_recall ntp nfp nfn).2 = 0 then 0
      else (2 * (gr_precision_recall ntp nfp nfn).1 * (gr_precision_recall ntp nfp nfn).2) /
        ((gr_precision_recall ntp nfp nfn).1 + (gr_precision_recall ntp nfp nfn).2)) ∧
    (ntp = 0 ∨ (((ntp : ℚ) + (nfp : ℚ)) ≠ 0 ∧ ((ntp : ℚ) + (nfn : ℚ)) ≠ 0 ∧
      (gr_precision_recall ntp nfp nfn).1 + (gr_precision_recall ntp nfp nfn).2 ≠ 0)) := by
  by_cases h : ntp = 0
  · subst h
    refine ⟨?_, ?_, ?_, ?_, Or.inl rfl⟩
    · simp [gr_precision_recall]
    · simp [gr_precision_recall]
    · simp [glr_metrics, gr_precision_recall]
    · simp [glr_metrics, gr_precision_recall]
  · have hntp : (0 : ℚ) < (ntp : ℚ) := by
      exact_mod_cast Nat.pos_of_ne_zero h
    have hdp : ((ntp : ℚ) + (nfp : ℚ)) ≠ 0 := by positivity
    have hdr : ((ntp : ℚ) + (nfn : ℚ)) ≠ 0 := by positivity
    have hp : (gr_precision_recall ntp nfp nfn).1 = (ntp : ℚ) / ((ntp : ℚ) + (nfp : ℚ)) := by
      simp [gr_precision_recall, h]
    have hr : (gr_precision_recall ntp nfp nfn).2 = (ntp : ℚ) / ((ntp : ℚ) + (nfn : ℚ)) := by
      simp [gr_precision_recall, h]
    have hppos : 0 < (gr_precision_recall ntp nfp nfn).1 := by
      rw [hp]; positivity
    have hrpos : 0 < (gr_precision_recall ntp nfp nfn).2 := by
      rw [hr]; positivity
    have hpr : (gr_precision_recall ntp nfp nfn).1 + (gr_precision_recall ntp nfp nfn).2 ≠ 0 := by
      positivity
    refine ⟨by rw [hp, if_neg hdp], by rw [hr, if_neg hdr], ?_, ?_, Or.inr ⟨hdp, hdr, hpr⟩⟩
    · constructor
      · simp [glr_metrics, h, hp, gr_precision_recall]
      · simp [glr_metrics, h, hr, gr_precision_recall]
    · rw [if_neg hpr]
      simp [glr_metrics, h, hp, hr, gr_precision_recall]

/-- C2: for every TP/FP/FN partition produced by the scoring kernel, the
reported precision is |TP|/(|TP|+|FP|), recall is |TP|/(|TP|+|FN|) and the
f-measure of `get_list_results` is 2PR/(P+R), each defined as 0 when its
denominator is 0; whenever the code takes the division branch every
denominator is nonzero, so no division by zero occurs in `get_results` or
`get_list_results`. -/
theorem c2_metrics_division_safe (system gold : Finset OffTuple) :
    let r := compare_sets system gold
    let ntp := r.1.card
    let nfp := r.2.1.card
    let nfn := r.2.2.card
    let p := (gr_precision_recall ntp nfp nfn).1
    let rc := (gr_precision_recall ntp nfp nfn).2
    (p = if ((ntp : ℚ) + (nfp : ℚ)) = 0 then 0 else (ntp : ℚ) / ((ntp : ℚ) + (nfp : ℚ))) ∧
    (rc = if ((ntp : ℚ) + (nfn : ℚ)) = 0 then 0 else (ntp : ℚ) / ((ntp : ℚ) + (nfn : ℚ))) ∧
    ((glr_metrics ntp nfp nfn).1 = p ∧ (glr_metrics ntp nfp nfn).2.1 = rc) ∧
    ((glr_metrics ntp nfp nfn).2.2 = if p + rc = 0 then 0 else (2 * p * rc) / (p + rc)) ∧
    (ntp = 0 ∨ (((ntp : ℚ) + (nfp : ℚ)) ≠ 0 ∧ ((ntp : ℚ) + (nfn : ℚ)) ≠ 0 ∧ p + rc ≠ 0)) := by
  intro r ntp nfp nfn p rc
  exact metrics_formulas ntp nfp nfn

/-- `pyReplaceF` preserves length whenever pattern and replacement have equal
length. -/
theorem pyReplaceF_length (pat repl : List Char) (h : pat.length = repl.length) :
    ∀ fuel s, (pyReplaceF pat repl fuel s).length = s.length := by
  intro fuel
  induction fuel with
  | zero => intro s; cases s <;> rfl
  | succ n ih =>
    intro s
    cases s with
    | nil => rfl
    | cons c rest =>
      rw [pyReplaceF]
      by_cases hp : pat ≠ [] ∧ pat.isPrefixOf (c :: rest)
      · rw [if_pos hp]
        have hle : pat.length ≤ (c :: rest).length :=
          (List.isPrefixOf_iff_prefix.mp hp.2).length_le
        simp only [List.length_append, ih, List.length_drop, List.length_cons] at *
        omega
      · rw [if_neg hp]
        simp [ih]

/-- `pyReplace` preserves length whenever pattern and replacement have equal
length. -/
theorem pyReplace_length (pat repl s : List Char) (h : pat.length = repl.length) :
    (pyReplace pat repl s).length = s.length :=
  pyReplaceF_length pat repl h s.length s

/-- The load-time normalizations preserve length: they only substitute
equal-length strings. -/
theorem titleNormalize_length (s : List Char) :
    (titleNormalize s).length = s.length ∧ (normalizeCommon s).length = s.length := by
  have h1 : (pyReplace ("<".data) ("(".data) s).length = s.length :=
    pyReplace_length ("<".data) ("(".data) s rfl
  have h2 : (normalizeCommon s).length = s.length := by
    unfold normalizeCommon
    rw [pyReplace_length (">".data) (")".data) _ rfl, h1]
  refine ⟨?_, h2⟩
  unfold titleNormalize
  rw [pyReplace_length (". ".data) (", ".data) _ rfl, h2]

/-- C4: the document-global resolution of a CHEMDNER abstract-section
annotation adds `title_offset = len(normalized_title) + len(separator)`,
which is the raw title length plus 2, to both ends; title-section offsets are
used as-is; and `load_annotations` (via `len(doc.title) + 1` over the stored
`strip(title) + "."`) and `get_chemdner_gold_ann_set` (via
`len(title_field) + 2`) apply exactly the same constant.  The hypothesis says
the raw title field carries no surrounding whitespace, as in well-formed
CHEMDNER abstracts files. -/
theorem c4_title_offset_consistency (pmid : String) (title abstract : List Char)
    (sents : List CSentence) (start stop : Nat) (h : pyStrip title = title) :
    load_ann_offset (load_corpus_line pmid title abstract sents) ("A".data) =
      (titleNormalize title).length + 2 ∧
    load_ann_offset (load_corpus_line pmid title abstract sents) ("A".data) =
      title.length + 2 ∧
    gold_ann_offset title ("A".data) = title.length + 2 ∧
    load_ann_offset (load_corpus_line pmid title abstract sents) ("A".data) =
      gold_ann_offset title ("A".data) ∧
    load_ann_resolved (load_corpus_line pmid title abstract sents) ("A".data) start stop =
      (start + (title.length + 2), stop + (title.length + 2)) ∧
    load_ann_offset (load_corpus_line pmid title abstract sents) ("T".data) = 0 ∧
    gold_ann_offset title ("T".data) = 0 ∧
    load_ann_resolved (load_corpus_line pmid title abstract sents) ("T".data) start stop =
      (start, stop) := by
  have hT : ("T".data : List Char) ≠ "A".data := by decide
  have hlen : load_ann_offset (load_corpus_line pmid title abstract sents) ("A".data) =
      title.length + 2 := by
    unfold load_ann_offset load_corpus_line
    rw [if_pos rfl]
    simp [h]
  refine ⟨?_, hlen, ?_, ?_, ?_, ?_, ?_, ?_⟩
  · rw [hlen, (titleNormalize_length title).1]
  · unfold gold_ann_offset
    rw [if_pos rfl]
  · rw [hlen]; unfold gold_ann_offset; rw [if_pos rfl]
  · unfold load_ann_resolved
    rw [hlen]
  · unfold load_ann_offset
    rw [if_neg hT]
  · unfold gold_ann_offset
    rw [if_neg hT]
  · unfold load_ann_resolved load_ann_offset
    rw [if_neg hT]
    simp

/-- Witness for C4 at the concrete title "Il1" and an abstract annotation
starting at 4: the applied constant is 5 on both the loading and the
gold-standard side. -/
theorem c4_title_offset_witness :
    pyStrip ("Il1".data) = "Il1".data ∧
    load_ann_offset (load_corpus_line "d1" ("Il1".data) ("C D".data) []) ("A".data) = 5 ∧
    gold_ann_offset ("Il1".data) ("A".data) = 5 ∧
    load_ann_resolved (load_corpus_line "d1" ("Il1".data) ("C D".data) []) ("A".data) 4 6 =
      (9, 11) := by
  have h : pyStrip ("Il1".data) = "Il1".data := by decide
  have hc := c4_title_offset_consistency "d1" ("Il1".data) ("C D".data) [] 4 6 h
  exact ⟨h, by rw [hc.2.1]; decide, by rw [hc.2.2.1]; decide,
    by rw [hc.2.2.2.2.1]; decide⟩

/-- C5: the loaded document text is `normalize(title) + ". " + normalize(body)`
(angle brackets replaced by parentheses everywhere, and "period+space"
collapsed to ", " inside the title only), stated for fields without
surrounding whitespace; in particular title "A. B" with body "C D" yields
document text "A, B. C D", and the abstract-local span (0, 1) resolves to the
document-global span (6, 7). -/
theorem c5_document_text_normalization (pmid : String) (title abstract : List Char)
    (sents : List CSentence) (h1 : pyStrip title = title) (h2 : pyStrip abstract = abstract) :
    (load_corpus_line pmid title abstract sents).text =
      titleNormalize title ++ ". ".data ++ normalizeCommon abstract ∧
    titleNormalize ("A. B".data) = "A, B".data ∧
    (load_corpus_line "x" ("A. B".data) ("C D".data) []).text = "A, B. C D".data ∧
    (load_corpus_line "x" ("A. B".data) ("C D".data) []).title = "A. B.".data ∧
    load_ann_resolved (load_corpus_line "x" ("A. B".data) ("C D".data) []) ("A".data) 0 1 =
      (6, 7) := by
  refine ⟨?_, by decide, by decide, by decide, by decide⟩
  unfold load_corpus_line
  rw [h1, h2]

/-- Witness for C5 at title "A. B" and body "C D". -/
theorem c5_document_text_witness :
    (load_corpus_line "x" ("A. B".data) ("C D".data) []).text =
      titleNormalize ("A. B".data) ++ ". ".data ++ normalizeCommon ("C D".data) :=
  (c5_document_text_normalization "x" ("A. B".data) ("C D".data) []
    (by decide) (by decide)).1

/-- A successful containment search returns an index whose sentence contains
the span. -/
theorem find_sentence_some (start stop : Nat) :
    ∀ (sents : List CSentence) (i : Nat),
      find_sentence_containing sents start stop = some i →
      ∃ s, sents.get? i = some s ∧ s.offset ≤ start ∧ stop ≤ s.offset + s.stext.length := by
  intro sents
  induction sents with
  | nil => intro i h; simp [find_sentence_containing] at h
  | cons s rest ih =>
    intro i h
    rw [find_sentence_containing] at h
    by_cases hc : s.offset ≤ start ∧ stop ≤ s.offset + s.stext.length
    · rw [if_pos hc] at h
      cases h
      exact ⟨s, rfl, hc.1, hc.2⟩
    · rw [if_neg hc] at h
      rcases Option.map_eq_some'.mp h with ⟨j, hj, hij⟩
      rcases ih j hj with ⟨s2, hs2, h1, h2⟩
      exact ⟨s2, by rw [← hij]; simpa using hs2, h1, h2⟩

/-- `modifyIdx` rewrites exactly the element at the index. -/
theorem modifyIdx_get (f : CSentence → CSentence) :
    ∀ (i : Nat) (l : List CSentence), (modifyIdx f i l).get? i = (l.get? i).map f := by
  intro i
  induction i with
  | zero => intro l; cases l <;> rfl
  | succ n ih => intro l; cases l with
    | nil => rfl
    | cons x xs => simpa [modifyIdx] using ih xs

/-- C6: an annotation whose resolved document-global span falls in no
sentence is dropped after the diagnostic — the document is unchanged, no
entity is added — and the remaining annotation lines are still processed; an
annotation that lands in a sentence is tagged there with sentence-local
offsets `dstart - sentence.offset` and `dend - sentence.offset`. -/
theorem c6_offset_resolution_drop (doc : ChemDoc) (a : AnnLine) (entitytype : List Char)
    (docs : List ChemDoc) (rest : List AnnLine) :
    (find_sentence_containing doc.sentences
        (load_ann_resolved doc a.doct a.start a.stop).1
        (load_ann_resolved doc a.doct a.start a.stop).2 = none →
      process_ann doc a = doc) ∧
    (∀ i, find_sentence_containing doc.sentences
        (load_ann_resolved doc a.doct a.start a.stop).1
        (load_ann_resolved doc a.doct a.start a.stop).2 = some i →
      ∃ s, doc.sentences.get? i = some s ∧
        s.offset ≤ (load_ann_resolved doc a.doct a.start a.stop).1 ∧
        (load_ann_resolved doc a.doct a.start a.stop).2 ≤ s.offset + s.stext.length ∧
        (process_ann doc a).sentences.get? i = some (tag_entity s
          ((load_ann_resolved doc a.doct a.start a.stop).1 - s.offset)
          ((load_ann_resolved doc a.doct a.start a.stop).2 - s.offset) a.atext a.chemt) ∧
        ∀ j, j ≠ i → (process_ann doc a).sentences.get? j = doc.sentences.get? j) ∧
    (load_annotations entitytype docs (a :: rest) =
      load_annotations entitytype
        (docs.map (fun d =>
          if d.did = a.pmid ∧ type_ok entitytype a.chemt then process_ann d a else d))
        rest) := by
  refine ⟨?_, ?_, rfl⟩
  · intro h
    simp [process_ann, h]
  · intro i h
    rcases find_sentence_some _ _ doc.sentences i h with ⟨s, hs, h1, h2⟩
    refine ⟨s, hs, h1, h2, ?_, ?_⟩
    · simp only [process_ann, h]
      rw [modifyIdx_get, hs]
      rfl
    · intro j hj
      simp only [process_ann, h]
      clear h hs
      induction doc.sentences generalizing i j with
      | nil => cases i <;> rfl
      | cons x xs ih =>
        cases i with
        | zero => cases j with
          | zero => exact absurd rfl hj
          | succ m => rfl
        | succ n => cases j with
          | zero => rfl
          | succ m => simpa [modifyIdx] using ih n m (fun hm => hj (by rw [hm]))

/-- Witness for C6: a document with one sentence covering [0, 5); the
annotation at [10, 12) lands in no sentence and is dropped, while the
annotation at [1, 3) is tagged into the sentence with sentence-local
offsets. -/
theorem c6_offset_resolution_witness :
    process_ann ⟨"d", [], [], [⟨0, "ab cd".data, []⟩]⟩
        ⟨"d", "T".data, 10, 12, "xx".data, "S".data⟩ =
      ⟨"d", [], [], [⟨0, "ab cd".data, []⟩]⟩ ∧
    (∃ s, ([⟨0, "ab cd".data, []⟩] : List CSentence).get? 0 = some s ∧
      s.offset ≤ 1 ∧ 3 ≤ s.offset + s.stext.length ∧
      (process_ann ⟨"d", [], [], [⟨0, "ab cd".data, []⟩]⟩
          ⟨"d", "T".data, 1, 3, "b ".data, "S".data⟩).sentences.get? 0 =
        some (tag_entity s (1 - s.offset) (3 - s.offset) "b ".data "S".data) ∧
      ∀ j, j ≠ 0 →
        (process_ann ⟨"d", [], [], [⟨0, "ab cd".data, []⟩]⟩
            ⟨"d", "T".data, 1, 3, "b ".data, "S".data⟩).sentences.get? j =
          ([⟨0, "ab cd".data, []⟩] : List CSentence).get? j) := by
  constructor
  · exact (c6_offset_resolution_drop ⟨"d", [], [], [⟨0, "ab cd".data, []⟩]⟩
      ⟨"d", "T".data, 10, 12, "xx".data, "S".data⟩ [] [] []).1 (by decide)
  · exact (c6_offset_resolution_drop ⟨"d", [], [], [⟨0, "ab cd".data, []⟩]⟩
      ⟨"d", "T".data, 1, 3, "b ".data, "S".data⟩ [] [] []).2.1 0 (by decide)

/-- Mapping a core-preserving entity update leaves the core view of an entity
list unchanged. -/
theorem map_core_of_pointwise (F : EEntity → EEntity)
    (h : ∀ x, core_of (F x) = core_of x) (es : List EEntity) :
    (es.map F).map core_of = es.map core_of := by
  rw [List.map_map]
  exact List.map_congr_left (fun x _ => h x)

/-- One `ssm_apply_one` pass preserves the core view of the sentences. -/
theorem sents_core_ssm_apply_one (g : EEntity → ℚ × String × String × String)
    (measure src : String) (e : EEntity) (sents : List (String × ESentence)) :
    sents_core (ssm_apply_one g measure src e sents) = sents_core sents := by
  unfold ssm_apply_one sents_core
  rw [List.map_map]
  apply List.map_congr_left
  intro sen _
  by_cases h : sen.1 = e.sid
  · simp only [Function.comp, if_pos h]
    refine congrArg (fun z => (sen.1, z)) ?_
    rw [List.map_map]
    apply List.map_congr_left
    intro se _
    by_cases h2 : se.1 = src
    · simp only [Function.comp, if_pos h2]
      refine congrArg (fun z => (se.1, z)) ?_
      exact map_core_of_pointwise _ (fun x => by
        by_cases h3 : x.eid = e.eid <;> simp [h3, ssm_update, core_of]) se.2
    · simp only [Function.comp, if_neg h2]
  · simp only [Function.comp, if_neg h]

/-- Folding `ssm_apply_one` over any entity list preserves the core view. -/
theorem sents_core_foldl_ssm (g : EEntity → ℚ × String × String × String)
    (measure src : String) (es : List EEntity) :
    ∀ sents : List (String × ESentence),
      sents_core (es.foldl (fun acc e => ssm_apply_one g measure src e acc) sents) =
        sents_core sents := by
  induction es with
  | nil => intro sents; rfl
  | cons e es ih =>
    intro sents
    simp only [List.foldl_cons]
    rw [ih, sents_core_ssm_apply_one]

/-- Folding over the document's sources preserves the core view. -/
theorem sents_core_fold_sources (g : EEntity → ℚ × String × String × String)
    (measure : String) (base : List (String × ESentence)) (srcs : List String) :
    ∀ acc : List (String × ESentence),
      sents_core (srcs.foldl (fun a s =>
        (collect_source s base).foldl (fun a2 e => ssm_apply_one g measure s e a2) a) acc) =
      sents_core acc := by
  induction srcs with
  | nil => intro acc; rfl
  | cons s srcs ih =>
    intro acc
    simp only [List.foldl_cons]
    rw [ih, sents_core_foldl_ssm]

/-- C9: the enrichment operations `add_chebi_mappings` and `add_ssm_score`
write only enrichment fields — the corpus keyed structure, every sentence's
elist sources, and the membership and order of every entity list, as well as
each entity's id, sentence id, text, and document- and sentence-level
offsets, are unchanged. -/
theorem c9_enrichment_frame (f : String → String × String × ℚ)
    (g : EEntity → ℚ × String × String × String) (measure source : String)
    (corpus : List (String × List (String × ESentence))) :
    corpus_core (add_chebi_mappings f source corpus) = corpus_core corpus ∧
    corpus_core (add_ssm_score g measure source corpus) = corpus_core corpus := by
  constructor
  · unfold add_chebi_mappings corpus_core
    rw [List.map_map]
    apply List.map_congr_left
    intro doc _
    refine congrArg (fun z => (doc.1, z)) ?_
    unfold sents_core
    rw [List.map_map]
    apply List.map_congr_left
    intro sen _
    refine congrArg (fun z => (sen.1, z)) ?_
    rw [List.map_map]
    apply List.map_congr_left
    intro se _
    by_cases h : se.1.startsWith source
    · simp only [Function.comp, if_pos h]
      refine congrArg (fun z => (se.1, z)) ?_
      exact map_core_of_pointwise (chebi_update f) (fun x => rfl) se.2
    · simp only [Function.comp, if_neg h]
  · unfold add_ssm_score corpus_core
    rw [List.map_map]
    apply List.map_congr_left
    intro doc _
    refine congrArg (fun z => (doc.1, z)) ?_
    unfold add_ssm_doc
    exact sents_core_fold_sources g measure doc.2 (doc_sources source doc.2) doc.2

/-- `get_report` ignores exactly the skipped tuples: filtering the input by
the keep test first changes nothing, so each skipped tuple is excluded while
all other tuples are still processed. -/
theorem get_report_skip {α : Type} [DecidableEq α] (proj : α → RTuple)
    (results : List α) (docids : List String) (gw : Bool) :
    get_report proj results docids gw =
      get_report proj (results.filter (fun t => keepTuple docids (proj t))) docids gw := by
  have hk : (results.filter (fun t => keepTuple docids (proj t))).filter
      (fun t => keepTuple docids (proj t)) =
      results.filter (fun t => keepTuple docids (proj t)) := by
    apply List.filter_eq_self.mpr
    intro a ha
    exact (List.mem_filter.mp ha).2
  unfold get_report
  rw [hk]

/-- `lexLe` is total. -/
theorem lexLe_total : ∀ a b : List Char, lexLe a b = true ∨ lexLe b a = true := by
  intro a
  induction a with
  | nil => intro b; left; rfl
  | cons x xs ih =>
    intro b
    cases b with
    | nil => right; rfl
    | cons y ys =>
      by_cases hxy : x = y
      · subst hxy
        rcases ih ys with h | h
        · left; simpa [lexLe] using h
        · right; simpa [lexLe] using h
      · rcases lt_trichotomy x y with h | h | h
        · left; simp [lexLe, hxy, h]
        · exact absurd h hxy
        · right; simp [lexLe, Ne.symm hxy, h]

/-- `lexLe` is transitive. -/
theorem lexLe_trans : ∀ a b c : List Char,
    lexLe a b = true → lexLe b c = true → lexLe a c = true := by
  intro a
  induction a with
  | nil => intro b c _ _; rfl
  | cons x xs ih =>
    intro b c hab hbc
    cases b with
    | nil => simp [lexLe] at hab
    | cons y ys =>
      cases c with
      | nil => simp [lexLe] at hbc
      | cons z zs =>
        by_cases hxy : x = y
        · subst hxy
          by_cases hyz : x = z
          · subst hyz
            simp only [lexLe, if_pos rfl] at *
            exact ih ys zs hab hbc
          · simp only [lexLe, if_neg hyz] at hbc ⊢
            exact hbc
        · have hx : x < y := by
            have := hab
            simp only [lexLe, if_neg hxy, decide_eq_true_eq] at this
            exact this
          by_cases hyz : y = z
          · subst hyz
            simp [lexLe, hxy, hx]
          · have hy : y < z := by
              have := hbc
              simp only [lexLe, if_neg hyz, decide_eq_true_eq] at this
              exact this
            have hxz : x < z := lt_trans hx hy
            simp [lexLe, ne_of_lt hxz, hxz]

/-- Every bucket of `get_report` is sorted and every line of it comes from a
kept tuple of that bucket's key. -/
theorem get_report_bucket {α : Type} [DecidableEq α] (proj : α → RTuple)
    (results : List α) (docids : List String) (gw : Bool) (k : String)
    (v : List String) :
    (k, v) ∈ (get_report proj results docids gw).1 →
      v.Sorted strLe ∧
      ∀ line ∈ v, ∃ t ∈ results, keepTuple docids (proj t) = true ∧
        keyOf (proj t) = k ∧ line = reportLine gw (proj t) := by
  intro hmem
  unfold get_report at hmem
  simp only [List.mem_map] at hmem
  obtain ⟨k0, hk0, heq⟩ := hmem
  obtain ⟨hkk, hvv⟩ := Prod.mk.injEq .. ▸ heq
  subst hkk
  subst hvv
  constructor
  · haveI : IsTotal String strLe := ⟨fun a b => lexLe_total a.data b.data⟩
    haveI : IsTrans String strLe := ⟨fun a b c => lexLe_trans a.data b.data c.data⟩
    exact List.sorted_insertionSort _ _
  · intro line hline
    rw [List.mem_insertionSort] at hline
    simp only [List.mem_map, List.mem_filter] at hline
    obtain ⟨t, ⟨⟨ht, hkeep⟩, hkey⟩, hl⟩ := hline
    exact ⟨t, ht, hkeep, by simpa using hkey, hl.symm⟩

/-- Every kept tuple contributes its line to the bucket of its key. -/
theorem get_report_line_present {α : Type} [DecidableEq α] (proj : α → RTuple)
    (results : List α) (docids : List String) (gw : Bool) (t : α) :
    t ∈ results → keepTuple docids (proj t) = true →
      ∃ v, (keyOf (proj t), v) ∈ (get_report proj results docids gw).1 ∧
        reportLine gw (proj t) ∈ v := by
  intro ht hkeep
  unfold get_report
  refine ⟨List.insertionSort strLe
    (((results.filter (fun u => keepTuple docids (proj u))).filter
        (fun u => keyOf (proj u) == keyOf (proj t))).map
      (fun u => reportLine gw (proj u))), ?_, ?_⟩
  · simp only [List.mem_map]
    refine ⟨keyOf (proj t), ?_, rfl⟩
    rw [List.mem_dedup]
    exact List.mem_map.mpr ⟨t, List.mem_filter.mpr ⟨ht, hkeep⟩, rfl⟩
  · rw [List.mem_insertionSort]
    exact List.mem_map.mpr ⟨t, List.mem_filter.mpr
      ⟨List.mem_filter.mpr ⟨ht, hkeep⟩, by simp⟩, rfl⟩

/-- C10: in `get_report` a tuple with an empty doc id is grouped under key
"0" and is exempt from the unknown-document exclusion — only tuples with a
nonempty doc id absent from `corpus.documents` are skipped — and the
`get_list_results` comparison builds exactly such empty-doc-id tuples, so a
text-only evaluation still produces a report. -/
theorem c10_empty_did_grouped_under_zero {α : Type} [DecidableEq α]
    (proj : α → RTuple) (results : List α) (docids : List String) (gw : Bool) :
    (get_report proj results docids gw =
      get_report proj (results.filter (fun t => keepTuple docids (proj t))) docids gw) ∧
    (∀ t ∈ results, (proj t).did = "" →
      keepTuple docids (proj t) = true ∧ keyOf (proj t) = "0" ∧
      ∃ v, ("0", v) ∈ (get_report proj results docids gw).1 ∧
        reportLine gw (proj t) ∈ v) ∧
    (∀ t ∈ results, (proj t).did ≠ "" → (proj t).did ∉ docids →
      keepTuple docids (proj t) = false) ∧
    (∀ s1 s2 s3 : String, (projList (s1, s2, s3)).did = s1 ∧ (projList ("", s2, s3)).did = "") := by
  refine ⟨get_report_skip proj results docids gw, ?_, ?_, ?_⟩
  · intro t ht hdid
    have hkeep : keepTuple docids (proj t) = true := by
      simp [keepTuple, hdid]
    have hkey : keyOf (proj t) = "0" := by
      simp [keyOf, hdid]
    obtain ⟨v, hv, hl⟩ := get_report_line_present proj results docids gw t ht hkeep
    exact ⟨hkeep, hkey, v, hkey ▸ hv, hl⟩
  · intro t _ hdid hnot
    simp only [keepTuple, Bool.or_eq_false_iff]
    constructor
    · simpa using hdid
    · simpa using hnot
  · intro s1 s2 s3
    exact ⟨rfl, rfl⟩

/-- Witness for C10: the single `get_list_results`-style tuple
("", "ab", "1") lands in the report under key "0". -/
theorem c10_empty_did_witness :
    ∃ v, ("0", v) ∈ (get_report projList [(("", "ab", "1") : String × String × String)]
        [] false).1 ∧
      reportLine false (projList ("", "ab", "1")) ∈ v :=
  ((c10_empty_did_grouped_under_zero projList [("", "ab", "1")] [] false).2.1
    ("", "ab", "1") (by simp) rfl).2.2

/-- Counterexample to C3 as stated: with an empty corpus, the gold tuple
("d1", 0, 1, "x") — whose doc id is not a corpus key — still appears in the
FN set of `compare_results` (it is not excluded from the TP/FP/FN
computation), and a system tuple with an unknown doc id makes `get_results`
abort (`sys.exit`) rather than recover. -/
theorem c3_unknown_did_counterexample :
    (compare_results projOff [] [(⟨"d1", 0, 1, "x"⟩ : OffTuple)] [] true).2.2.2 =
      [(⟨"d1", 0, 1, "x"⟩ : OffTuple)] ∧
    ("d1" ∉ ([] : List String)) ∧
    get_results_content [(⟨"d1", 0, 1, "x"⟩ : OffTuple)] [] [] true (fun _ => "") =
      none := by
  refine ⟨by decide, by decide, by decide⟩

/-- C3 amended: a gold tuple with an unknown document id is not excluded from
the TP/FP/FN computation — it still counts (for instance as an FN); it is
logged and excluded only from the per-document report lines, where processing
of the remaining tuples continues; and a system tuple with an unknown
document id is fatal: `get_results` exits instead of recovering. -/
theorem c3_unknown_did_amended :
    (∀ (sys gold : List OffTuple) (docids : List String) (gw : Bool) (t : OffTuple),
      t ∈ gold → t ∉ sys →
        t ∈ (compare_results projOff sys gold docids gw).2.2.2) ∧
    (∀ {α : Type} [DecidableEq α] (proj : α → RTuple) (results : List α)
      (docids : List String) (gw : Bool),
      get_report proj results docids gw =
        get_report proj (results.filter (fun u => keepTuple docids (proj u))) docids gw) ∧
    (∀ (offsets gold : List OffTuple) (docids : List String) (ct : Bool)
      (render : ℚ → String),
      (∃ o ∈ offsets, o.did ∉ docids) →
        get_results_content offsets gold docids ct render = none) := by
  refine ⟨?_, ?_, ?_⟩
  · intro sys gold docids gw t hg hs
    simp only [compare_results, List.mem_filter]
    exact ⟨hg, by simpa using hs⟩
  · intro α inst proj results docids gw
    exact get_report_skip proj results docids gw
  · intro offsets gold docids ct render h
    unfold get_results_content
    rw [if_pos h]

/-- Witness for the amended C3 at concrete inputs. -/
theorem c3_unknown_did_witness :
    (⟨"d1", 0, 1, "x"⟩ : OffTuple) ∈
      (compare_results projOff [] [(⟨"d1", 0, 1, "x"⟩ : OffTuple)] [] true).2.2.2 ∧
    get_results_content [(⟨"d1", 0, 1, "x"⟩ : OffTuple)] [] [] true (fun _ => "1") =
      none :=
  ⟨c3_unknown_did_amended.1 [] [⟨"d1", 0, 1, "x"⟩] [] true ⟨"d1", 0, 1, "x"⟩
      (by simp) (by simp),
   c3_unknown_did_amended.2.2 [⟨"d1", 0, 1, "x"⟩] [] [] true (fun _ => "1")
      ⟨⟨"d1", 0, 1, "x"⟩, by simp, by simp⟩⟩

/-- Counterexample to C8 as stated: with text comparison disabled, only the
system side is blanked; the gold tuple ("d", 0, 1, "x") reaches the kernel
with its text, so the system span ("d", 0, 1, "y") does not match it even
though doc id, start and end coincide — the TP set is empty. -/
theorem c8_blank_text_counterexample :
    get_results_offsets [(⟨"d", 0, 1, "y"⟩ : OffTuple)] false =
      [(⟨"d", 0, 1, ""⟩ : OffTuple)] ∧
    (compare_results projOff
        ((get_results_offsets [(⟨"d", 0, 1, "y"⟩ : OffTuple)] false).dedup)
        [(⟨"d", 0, 1, "x"⟩ : OffTuple)] ["d"] false).2.1 = [] ∧
    (compare_results projOff
        ((get_results_offsets [(⟨"d", 0, 1, "y"⟩ : OffTuple)] false).dedup)
        [(⟨"d", 0, 1, "x"⟩ : OffTuple)] ["d"] false).2.2.2 =
      [(⟨"d", 0, 1, "x"⟩ : OffTuple)] := by
  refine ⟨by decide, by decide, by decide⟩

/-- C8 amended: when text comparison is disabled `get_results` blanks the
text of every system tuple, but passes the gold side unchanged; hence a
system span matches a gold span exactly when doc id, start and end coincide
and the gold tuple's recorded text is itself empty. -/
theorem c8_blank_text_amended (offsets gold : List OffTuple)
    (docids : List String) :
    (∀ t ∈ get_results_offsets offsets false, t.text = "") ∧
    (get_results_offsets offsets true = offsets) ∧
    (∀ t : OffTuple,
      t ∈ (compare_results projOff ((get_results_offsets offsets false).dedup)
          gold docids false).2.1 ↔
        (t.text = "" ∧ t ∈ gold ∧
          ∃ o ∈ offsets, o.did = t.did ∧ o.start = t.start ∧ o.stop = t.stop)) := by
  refine ⟨?_, rfl, ?_⟩
  · intro t ht
    simp only [get_results_offsets, if_neg Bool.false_ne_true, List.mem_map] at ht
    obtain ⟨o, _, ho⟩ := ht
    rw [← ho]
  · intro t
    simp only [compare_results, List.mem_filter, List.mem_dedup,
      get_results_offsets, if_neg Bool.false_ne_true, List.mem_map,
      decide_eq_true_eq]
    constructor
    · rintro ⟨⟨o, ho, hblank⟩, hg⟩
      refine ⟨by rw [← hblank], hg, o, ho, ?_, ?_, ?_⟩ <;> rw [← hblank]
    · rintro ⟨htext, hg, o, ho, h1, h2, h3⟩
      refine ⟨⟨o, ho, ?_⟩, hg⟩
      exact OffTuple.ext h1 h2 h3 htext.symm

/-- Every key of a `get_report` output is the key of some kept tuple. -/
theorem get_report_key_origin {α : Type} [DecidableEq α] (proj : α → RTuple)
    (results : List α) (docids : List String) (gw : Bool) (d : String) :
    d ∈ ((get_report proj results docids gw).1.map Prod.fst) →
      ∃ t ∈ results, keepTuple docids (proj t) = true ∧ keyOf (proj t) = d := by
  unfold get_report
  intro h
  simp only [List.map_map] at h
  have : ((results.filter (fun t => keepTuple docids (proj t))).map
      (fun t => keyOf (proj t))).dedup.map
        (Prod.fst ∘ fun k => (k, List.insertionSort strLe
          (((results.filter (fun t => keepTuple docids (proj t))).filter
            (fun t => keyOf (proj t) == k)).map
              (fun t => reportLine gw (proj t))))) =
      ((results.filter (fun t => keepTuple docids (proj t))).map
        (fun t => keyOf (proj t))).dedup := by
    rw [show (Prod.fst ∘ fun k : String => (k, List.insertionSort strLe
      (((results.filter (fun t => keepTuple docids (proj t))).filter
        (fun t => keyOf (proj t) == k)).map
          (fun t => reportLine gw (proj t))))) = id from rfl]
    exact List.map_id _
  rw [this] at h
  rw [List.mem_dedup] at h
  simp only [List.mem_map, List.mem_filter] at h
  obtain ⟨t, ⟨ht, hkeep⟩, hkey⟩ := h
  exact ⟨t, ht, hkeep, hkey⟩

/-- Every line delivered by `lookupLines` over a `get_report` output comes
from a kept input tuple. -/
theorem lookupLines_line_origin {α : Type} [DecidableEq α] (proj : α → RTuple)
    (results : List α) (docids : List String) (gw : Bool) (d x : String) :
    x ∈ lookupLines (get_report proj results docids gw).1 d →
      ∃ t ∈ results, keepTuple docids (proj t) = true ∧
        x = reportLine gw (proj t) := by
  unfold lookupLines
  cases hf : (get_report proj results docids gw).1.find? (fun p => p.1 == d) with
  | none => intro hx; simp at hx
  | some p =>
    intro hx
    have hp := List.mem_of_find?_eq_some hf
    have hb := get_report_bucket proj results docids gw p.1 p.2 (by simpa using hp)
    obtain ⟨t, ht, hkeep, _, hline⟩ := hb.2 x hx
    exact ⟨t, ht, hkeep, hline⟩

/-- Counterexample to C7 as stated: in the `evaluate_list` scoring run on the
single entity "Ab" against the gold name "ab", the written report content is
"TPs: 1\nFPs: 0\n FNs: 0\nPrecision: 1\nRecall: 1\n0\nTP:0\tab:1\n" — the
FNs line carries a leading space and the span lines are grouped under a bare
doc-id line and carry a "TP:" prefix — so the content does not begin with the
claimed "TPs: <n>\nFPs: <n>\nFNs: <n>\nPrecision: <p>\nRecall: <r>\n". -/
theorem c7_report_format_counterexample :
    get_list_results_content ["Ab"] ["ab"] [] (fun _ => "1") =
      "TPs: 1\nFPs: 0\n FNs: 0\nPrecision: 1\nRecall: 1\n0\nTP:0\tab:1\n" ∧
    List.isPrefixOf ("TPs: 1\nFPs: 0\nFNs: 0\nPrecision: 1\nRecall: 1\n".data)
      (get_list_results_content ["Ab"] ["ab"] [] (fun _ => "1")).data = false := by
  exact ⟨by decide, by decide⟩

/-- C7 amended: every scoring run writes a report whose content begins with
"TPs: <n>\nFPs: <n>\n FNs: <n>\n" (with a space before FNs) followed by
"Precision: <p>\n Recall: <r>\n" in `get_results` (space before Recall) and
by "Precision: <p>\nRecall: <r>\n" in `get_list_results`; the rest, when text
comparison is disabled, consists of per-document blocks — a line holding the
document key followed by one line per (category, span) pair, the categories
written as "TP:"/"FP:"/"FN:" prefixes on tab-separated `doc_id \t start:end
[\t text]` lines — and within each document each category's lines are
sorted. -/
theorem c7_report_format_amended :
    (∀ (offsets gold : List OffTuple) (docids : List String) (ct : Bool)
      (render : ℚ → String),
      (¬ ∃ o ∈ offsets, o.did ∉ docids) →
      ∃ body : String,
        get_results_content offsets gold docids ct render =
          some ("TPs: " ++
            toString (compare_results projOff ((get_results_offsets offsets ct).dedup)
              gold docids ct).2.1.length ++
            "\nFPs: " ++
            toString (compare_results projOff ((get_results_offsets offsets ct).dedup)
              gold docids ct).2.2.1.length ++
            "\n FNs: " ++
            toString (compare_results projOff ((get_results_offsets offsets ct).dedup)
              gold docids ct).2.2.2.length ++ "\n" ++
            "Precision: " ++
            render (gr_precision_recall
              (compare_results projOff ((get_results_offsets offsets ct).dedup)
                gold docids ct).2.1.length
              (compare_results projOff ((get_results_offsets offsets ct).dedup)
                gold docids ct).2.2.1.length
              (compare_results projOff ((get_results_offsets offsets ct).dedup)
                gold docids ct).2.2.2.length).1 ++
            "\n Recall: " ++
            render (gr_precision_recall
              (compare_results projOff ((get_results_offsets offsets ct).dedup)
                gold docids ct).2.1.length
              (compare_results projOff ((get_results_offsets offsets ct).dedup)
                gold docids ct).2.2.1.length
              (compare_results projOff ((get_results_offsets offsets ct).dedup)
                gold docids ct).2.2.2.length).2 ++ "\n" ++ body)) ∧
    (∀ (allentities goldset : List String) (docids : List String)
      (render : ℚ → String),
      ∃ body : String,
        get_list_results_content allentities goldset docids render =
          "TPs: " ++
          toString (compare_results projList
            ((allentities.map (fun l => (("", pyLower l, "1") : String × String × String))).dedup)
            ((goldset.map (fun grec => (("", pyLower grec, "1") : String × String × String))).dedup)
            docids false).2.1.length ++
          "\nFPs: " ++
          toString (compare_results projList
            ((allentities.map (fun l => (("", pyLower l, "1") : String × String × String))).dedup)
            ((goldset.map (fun grec => (("", pyLower grec, "1") : String × String × String))).dedup)
            docids false).2.2.1.length ++
          "\n FNs: " ++
          toString (compare_results projList
            ((allentities.map (fun l => (("", pyLower l, "1") : String × String × String))).dedup)
            ((goldset.map (fun grec => (("", pyLower grec, "1") : String × String × String))).dedup)
            docids false).2.2.2.length ++ "\n" ++
          "Precision: " ++
          render (glr_metrics
            (compare_results projList
              ((allentities.map (fun l => (("", pyLower l, "1") : String × String × String))).dedup)
              ((goldset.map (fun grec => (("", pyLower grec, "1") : String × String × String))).dedup)
              docids false).2.1.length
            (compare_results projList
              ((allentities.map (fun l => (("", pyLower l, "1") : String × String × String))).dedup)
              ((goldset.map (fun grec => (("", pyLower grec, "1") : String × String × String))).dedup)
              docids false).2.2.1.length
            (compare_results projList
              ((allentities.map (fun l => (("", pyLower l, "1") : String × String × String))).dedup)
              ((goldset.map (fun grec => (("", pyLower grec, "1") : String × String × String))).dedup)
              docids false).2.2.2.length).1 ++
          "\nRecall: " ++
          render (glr_metrics
            (compare_results projList
              ((allentities.map (fun l => (("", pyLower l, "1") : String × String × String))).dedup)
              ((goldset.map (fun grec => (("", pyLower grec, "1") : String × String × String))).dedup)
              docids false).2.1.length
            (compare_results projList
              ((allentities.map (fun l => (("", pyLower l, "1") : String × String × String))).dedup)
              ((goldset.map (fun grec => (("", pyLower grec, "1") : String × String × String))).dedup)
              docids false).2.2.1.length
            (compare_results projList
              ((allentities.map (fun l => (("", pyLower l, "1") : String × String × String))).dedup)
              ((goldset.map (fun grec => (("", pyLower grec, "1") : String × String × String))).dedup)
              docids false).2.2.2.length).2.1 ++ "\n" ++ body) ∧
    (∀ {α : Type} [DecidableEq α] (proj : α → RTuple) (sys gold : List α)
      (docids : List String),
      ∀ line ∈ (compare_results proj sys gold docids false).1,
        (∃ t, (t ∈ sys ∨ t ∈ gold) ∧ keepTuple docids (proj t) = true ∧
          line = keyOf (proj t)) ∨
        (∃ t, t ∈ sys ∧ t ∈ gold ∧ keepTuple docids (proj t) = true ∧
          line = "TP:" ++ reportLine false (proj t)) ∨
        (∃ t, t ∈ sys ∧ t ∉ gold ∧ keepTuple docids (proj t) = true ∧
          line = "FP:" ++ reportLine false (proj t)) ∨
        (∃ t, t ∈ gold ∧ t ∉ sys ∧ keepTuple docids (proj t) = true ∧
          line = "FN:" ++ reportLine false (proj t))) ∧
    (∀ {α : Type} [DecidableEq α] (proj : α → RTuple) (results : List α)
      (docids : List String) (gw : Bool) (k : String) (v : List String),
      (k, v) ∈ (get_report proj results docids gw).1 → v.Sorted strLe) := by
  refine ⟨?_, ?_, ?_, ?_⟩
  · intro offsets gold docids ct render h
    unfold get_results_content
    rw [if_neg h]
    exact ⟨_, rfl⟩
  · intro allentities goldset docids render
    unfold get_list_results_content
    exact ⟨_, rfl⟩
  · intro α inst proj sys gold docids line hline
    simp only [compare_results, Bool.false_eq_true, if_false, List.nil_append,
      List.mem_flatten, List.mem_map] at hline
    obtain ⟨block, ⟨d, hd, hblock⟩, hline⟩ := hline
    rw [← hblock] at hline
    rcases List.mem_cons.mp hline with hl | hl
    · left
      rw [List.mem_dedup] at hd
      rcases List.mem_append.mp hd with hd2 | hd2
      · rcases List.mem_append.mp hd2 with hd3 | hd3
        · obtain ⟨t, ht, hkeep, hkey⟩ := get_report_key_origin proj _ docids false d hd3
          have := List.mem_filter.mp ht
          refine ⟨t, Or.inl this.1, hkeep, by rw [hl, hkey]⟩
        · obtain ⟨t, ht, hkeep, hkey⟩ := get_report_key_origin proj _ docids false d hd3
          have := List.mem_filter.mp ht
          refine ⟨t, Or.inr this.1, hkeep, by rw [hl, hkey]⟩
      · obtain ⟨t, ht, hkeep, hkey⟩ := get_report_key_origin proj _ docids false d hd2
        have := List.mem_filter.mp ht
        refine ⟨t, Or.inl this.1, hkeep, by rw [hl, hkey]⟩
    rcases List.mem_append.mp hl with hl2 | hl2
    · right; left
      obtain ⟨x, hx, hlx⟩ := List.mem_map.mp hl2
      obtain ⟨t, ht, hkeep, hxr⟩ := lookupLines_line_origin proj _ docids false d x hx
      have hmem := List.mem_filter.mp ht
      refine ⟨t, hmem.1, by simpa using hmem.2, hkeep, by rw [← hlx, hxr]⟩
    rcases List.mem_append.mp hl2 with hl3 | hl3
    · right; right; left
      obtain ⟨x, hx, hlx⟩ := List.mem_map.mp hl3
      obtain ⟨t, ht, hkeep, hxr⟩ := lookupLines_line_origin proj _ docids false d x hx
      have hmem := List.mem_filter.mp ht
      refine ⟨t, hmem.1, by simpa using hmem.2, hkeep, by rw [← hlx, hxr]⟩
    · right; right; right
      obtain ⟨x, hx, hlx⟩ := List.mem_map.mp hl3
      obtain ⟨t, ht, hkeep, hxr⟩ := lookupLines_line_origin proj _ docids false d x hx
      have hmem := List.mem_filter.mp ht
      refine ⟨t, hmem.1, by simpa using hmem.2, hkeep, by rw [← hlx, hxr]⟩
  · intro α inst proj results docids gw k v hm
    exact (get_report_bucket proj results docids gw k v hm).1

/-- Witness for the amended C7: the empty run writes a report with the actual
header layout. -/
theorem c7_report_format_witness :
    ∃ body : String,
      get_results_content [] [] [] true (fun _ => "0") =
        some ("TPs: " ++
          toString (compare_results projOff ((get_results_offsets [] true).dedup)
            [] [] true).2.1.length ++
          "\nFPs: " ++
          toString (compare_results projOff ((get_results_offsets [] true).dedup)
            [] [] true).2.2.1.length ++
          "\n FNs: " ++
          toString (compare_results projOff ((get_results_offsets [] true).dedup)
            [] [] true).2.2.2.length ++ "\n" ++
          "Precision: " ++
          (fun _ : ℚ => "0") (gr_precision_recall
            (compare_results projOff ((get_results_offsets [] true).dedup)
              [] [] true).2.1.length
            (compare_results projOff ((get_results_offsets [] true).dedup)
              [] [] true).2.2.1.length
            (compare_results projOff ((get_results_offsets [] true).dedup)
              [] [] true).2.2.2.length).1 ++
          "\n Recall: " ++
          (fun _ : ℚ => "0") (gr_precision_recall
            (compare_results projOff ((get_results_offsets [] true).dedup)
              [] [] true).2.1.length
            (compare_results projOff ((get_results_offsets [] true).dedup)
              [] [] true).2.2.1.length
            (compare_results projOff ((get_results_offsets [] true).dedup)
              [] [] true).2.2.2.length).2 ++ "\n" ++ body) :=
  c7_report_format_amended.1 [] [] [] true (fun _ => "0") (by simp)

/-- Witness for the amended C8: the blank system tuple ("d", 0, 1, "")
matches the gold tuple ("d", 0, 1, "") produced from system span
("d", 0, 1, "y") with text comparison disabled. -/
theorem c8_blank_text_witness :
    (⟨"d", 0, 1, ""⟩ : OffTuple) ∈
      (compare_results projOff
        ((get_results_offsets [(⟨"d", 0, 1, "y"⟩ : OffTuple)] false).dedup)
        [(⟨"d", 0, 1, ""⟩ : OffTuple)] ["d"] false).2.1 :=
  ((c8_blank_text_amended [⟨"d", 0, 1, "y"⟩] [⟨"d", 0, 1, ""⟩] ["d"]).2.2
      ⟨"d", 0, 1, ""⟩).mpr
    ⟨rfl, by simp, ⟨"d", 0, 1, "y"⟩, by simp, rfl, rfl, rfl⟩
